import Mathlib

/-!
Shallow embedding of `src/title.rs` from sctk-adwaita: the `TitleText`
renderer that rasterizes a window title into an RGBA bitmap.

Modelling conventions:
* The crossfont rasterizer is an external collaborator; it is modelled as a
  record of query functions (`RasterFuns`) parameterised by the current
  device-pixel ratio, together with the mutable `dpr` field that
  `update_dpr` sets.  Fallible backend calls return `Except ε`.
* `f32`/`f64` quantities returned by the backend (line height, descent,
  kerning) are modelled as rationals; the Rust casts `.round() as i32` and
  `as i32` are modelled by `rustRound` and `ratTrunc`, and `as u32` by
  `u32cast` (reduction modulo 2^32).
* The per-pixel float pipeline (`set_alpha`, `premultiply`, `to_color_u8`)
  operates channelwise; its scalar arithmetic is abstracted by a
  `TintModel`: an alpha value of abstract type `A` extracted from the
  coverage data, plus channelwise byte conversions.  Which bytes of the
  glyph buffer feed the computation, and which bytes are emitted, is kept
  exact.
* The tiny-skia pixmap is modelled by its dimensions plus the ordered
  trace of successful `draw_pixmap` calls; `Pixmap::new` fails exactly on a
  zero dimension and `PixmapRef::from_bytes` checks nonzero dimensions and
  the exact byte length, as the real primitives do.
* Out-of-bounds slice indexing (a Rust panic) is modelled by `Option.none`
  propagating out of the render pass.
-/

namespace SctkTitle

/-- Rounding as Rust `f32::round`/`f64::round`: nearest integer, ties away
from zero.  For `q = n/d` with `d > 0` and `n ≥ 0` this is
`⌊(2n + d) / 2d⌋ = ⌊q + 1/2⌋`, mirrored for negative `q`. -/
def rustRound (q : ℚ) : Int :=
  if q.num < 0 then -((2 * (-q.num) + (q.den : Int)) / (2 * (q.den : Int)))
  else (2 * q.num + (q.den : Int)) / (2 * (q.den : Int))

/-- Truncation toward zero, modelling Rust float-to-integer `as` casts. -/
def ratTrunc (q : ℚ) : Int :=
  if q.num < 0 then -((-q.num) / (q.den : Int)) else q.num / (q.den : Int)

/-- The Rust cast `as u32` applied to an `i32` value, as a natural number. -/
def u32cast (w : Int) : Nat := (w % (2 ^ 32 : Int)).toNat

/-- Rust `slice::chunks(3)`: maximal runs of 3, last chunk possibly shorter. -/
def chunks3 : List Nat → List (List Nat)
  | [] => []
  | [a] => [[a]]
  | [a, b] => [[a, b]]
  | a :: b :: c :: rest => [a, b, c] :: chunks3 rest

/-- Rust `slice::chunks(4)`: maximal runs of 4, last chunk possibly shorter. -/
def chunks4 : List Nat → List (List Nat)
  | [] => []
  | [a] => [[a]]
  | [a, b] => [[a, b]]
  | [a, b, c] => [[a, b, c]]
  | a :: b :: c :: d :: rest => [a, b, c, d] :: chunks4 rest

/-- crossfont font slant (only `Normal` is used by the code). -/
inductive Slant
  | normal
  | italic
  | oblique
  deriving DecidableEq

/-- crossfont font weight (only `Normal` is used by the code). -/
inductive Weight
  | normal
  | bold
  deriving DecidableEq

/-- crossfont `FontDesc`: family name plus style description. -/
structure FontDesc where
  name : String
  slant : Slant
  weight : Weight
  deriving DecidableEq

/-- The fixed descriptor built in `TitleText::new`. -/
def sansSerif : FontDesc := { name := "sans-serif", slant := .normal, weight := .normal }

/-- crossfont `GlyphKey`: font key, character and font size. -/
structure GlyphKey where
  font_key : Nat
  character : Char
  size : ℚ
  deriving DecidableEq

/-- crossfont `BitmapBuffer`: glyph pixels tagged RGB (3 bytes each) or RGBA (4). -/
inductive BitmapBuffer
  | rgb (v : List Nat)
  | rgba (v : List Nat)
  deriving DecidableEq

/-- crossfont `RasterizedGlyph`: bearings, extent, advance and pixel data. -/
structure RasterizedGlyph where
  left : Int
  top : Int
  width : Int
  height : Int
  advance : Int × Int
  buffer : BitmapBuffer
  deriving DecidableEq

/-- The crossfont metrics fields consumed by `title.rs`. -/
structure Metrics where
  line_height : ℚ
  descent : ℚ
  deriving DecidableEq

/-- tiny-skia `Color`: non-premultiplied RGBA components. -/
structure Color where
  r : ℚ
  g : ℚ
  b : ℚ
  a : ℚ
  deriving DecidableEq

/-- tiny-skia `ColorU8`: one byte per channel. -/
structure ColorU8 where
  red : Nat
  green : Nat
  blue : Nat
  alpha : Nat
  deriving DecidableEq

/-- The data entering the per-pixel alpha computation: either the explicit
alpha byte (`px.get(3)` present) or the three RGB bytes averaged. -/
inductive Coverage
  | fromAlpha (a : Nat)
  | fromRGB (r g b : Nat)
  deriving DecidableEq

/-- Abstract model of the f32 scalar pipeline applied per pixel: `alphaOf`
turns the coverage data into an alpha value of abstract type `A`
(`x / 255` resp. `(r + g + b) / 3 / 255` in the code); `premulByte c a`
models `to_color_u8` of a base channel `c` premultiplied by `a`, and
`alphaByte` models `to_color_u8` of the alpha channel itself. -/
structure TintModel (A : Type) where
  alphaOf : Coverage → A
  premulByte : ℚ → A → Nat
  alphaByte : A → Nat

/-- The premultiplied byte color produced for one pixel:
`color.set_alpha(alpha); color.premultiply().to_color_u8()`. -/
def tintPixel {A : Type} (tm : TintModel A) (c : Color) (cov : Coverage) : ColorU8 :=
  let a := tm.alphaOf cov
  { red := tm.premulByte c.r a
    green := tm.premulByte c.g a
    blue := tm.premulByte c.b a
    alpha := tm.alphaByte a }

/-- The four bytes pushed per pixel in the render loop, in push order:
red, red again, green, alpha. -/
def pixel4 (u : ColorU8) : List Nat := [u.red, u.red, u.green, u.alpha]

/-- Per-chunk coverage extraction: `px.get(3)` when present, else the bytes
`px[0]`, `px[1]`, `px[2]`; `none` models the out-of-bounds panic. -/
def pxCoverage (px : List Nat) : Option Coverage :=
  match px.get? 3 with
  | some a => some (.fromAlpha a)
  | none =>
    match px.get? 0, px.get? 1, px.get? 2 with
    | some r, some g, some b => some (.fromRGB r g b)
    | _, _, _ => none

/-- The chunk iterator for a glyph buffer: `v.chunks(3)` or `v.chunks(4)`. -/
def glyphChunks : BitmapBuffer → List (List Nat)
  | .rgb v => chunks3 v
  | .rgba v => chunks4 v

/-- The byte-pushing loop over the chunks, accumulating the glyph buffer. -/
def pixFold {A : Type} (tm : TintModel A) (c : Color) :
    List Nat → List (List Nat) → Option (List Nat)
  | buf, [] => some buf
  | buf, px :: rest =>
    match pxCoverage px with
    | none => none
    | some cov => pixFold tm c (buf ++ pixel4 (tintPixel tm c cov)) rest

/-- The RGBA byte buffer built for one glyph (the `buffer` local of the
render loop); `none` models a panic on a malformed chunk. -/
def glyphBytes {A : Type} (tm : TintModel A) (c : Color) (b : BitmapBuffer) :
    Option (List Nat) :=
  pixFold tm c [] (glyphChunks b)

/-- The coverage data of every chunk of a pixel iterator, `none` as soon as
one chunk is malformed. -/
def covList : List (List Nat) → Option (List Coverage)
  | [] => some []
  | px :: rest =>
    match pxCoverage px, covList rest with
    | some cov, some covs => some (cov :: covs)
    | _, _ => none

/-- Backend calls observable by the rasterizer, used to state the
no-side-effect claims. -/
inductive BackendCall
  | updateDpr (dpr : Nat)
  | getGlyph (dpr : Nat) (key : GlyphKey)
  | metricsQ (dpr : Nat)
  | kerningQ (dpr : Nat) (l r : GlyphKey)
  deriving DecidableEq

/-- The query functions of a crossfont rasterizer, parameterised by the
device-pixel ratio currently configured on it. -/
structure RasterFuns (ε : Type) where
  loadFont : Nat → FontDesc → ℚ → Except ε Nat
  glyphAt : Nat → GlyphKey → Except ε RasterizedGlyph
  metricsAt : Nat → Nat → ℚ → Except ε Metrics
  kerningAt : Nat → GlyphKey → GlyphKey → ℚ × ℚ

/-- A crossfont rasterizer: its current device-pixel ratio plus queries. -/
structure Rasterizer (ε : Type) where
  dpr : Nat
  funs : RasterFuns ε

/-- One successful `draw_pixmap` call: position, source dimensions, bytes. -/
structure DrawOp where
  x : Int
  y : Int
  w : Nat
  h : Nat
  bytes : List Nat
  deriving DecidableEq

/-- tiny-skia `Pixmap`, modelled by its dimensions and the ordered trace of
successful `draw_pixmap` calls applied to it (empty = all zero pixels). -/
structure Pixmap where
  width : Nat
  height : Nat
  ops : List DrawOp
  deriving DecidableEq

/-- tiny-skia `Pixmap::new`: zero-initialized, fails on a zero dimension. -/
def Pixmap.new (w h : Nat) : Option Pixmap :=
  if w = 0 ∨ h = 0 then none else some { width := w, height := h, ops := [] }

/-- The `TitleText` struct of `title.rs`. -/
structure TitleText (ε : Type) where
  title : String
  font_desc : FontDesc
  font_key : Nat
  size : ℚ
  scale : Nat
  metrics : Metrics
  rasterizer : Rasterizer ε
  color : Color
  pixmap : Option Pixmap

/-- The glyph key built for one character of the title. -/
def glyphKeyOf {ε : Type} (st : TitleText ε) (c : Char) : GlyphKey :=
  { font_key := st.font_key, character := c, size := st.size }

/-- The per-character glyph lookups of the render pass, in title order. -/
def glyphLookups {ε : Type} (st : TitleText ε) :
    List (GlyphKey × Except ε RasterizedGlyph) :=
  st.title.toList.map fun c =>
    (glyphKeyOf st c, st.rasterizer.funs.glyphAt st.rasterizer.dpr (glyphKeyOf st c))

/-- The accepted glyphs: failed lookups are silently dropped (`filter_map`). -/
def glyphsOf {ε : Type} (st : TitleText ε) : List (GlyphKey × RasterizedGlyph) :=
  (glyphLookups st).filterMap fun p =>
    match p.2 with
    | .ok g => some (p.1, g)
    | .error _ => none

/-- The `get_glyph` backend calls issued while collecting the glyphs. -/
def glyphCalls {ε : Type} (st : TitleText ε) : List BackendCall :=
  (glyphLookups st).map fun p => .getGlyph st.rasterizer.dpr p.1

/-- The bitmap width fold: `glyphs.iter().fold(0, |w, (_, g)| w + (g.left + g.width).max(5))`. -/
def widthOf (gs : List (GlyphKey × RasterizedGlyph)) : Int :=
  gs.foldl (fun w p => w + max (p.2.left + p.2.width) 5) 0

/-- Horizontal kerning added to the caret before placing a glyph: zero when
there is no previous glyph, else the truncated x-kerning of the pair. -/
def kernAdd {ε : Type} (rast : Rasterizer ε) (last : Option GlyphKey) (key : GlyphKey) : Int :=
  match last with
  | some l => ratTrunc (rast.funs.kerningAt rast.dpr l key).1
  | none => 0

/-- The kerning backend call issued for one glyph, if it has a predecessor. -/
def kernCalls {ε : Type} (rast : Rasterizer ε) (last : Option GlyphKey) (key : GlyphKey) :
    List BackendCall :=
  match last with
  | some l => [.kerningQ rast.dpr l key]
  | none => []

/-- The `draw_pixmap` call attempted for one glyph: issued exactly when
`PixmapRef::from_bytes` succeeds (nonzero dimensions, exact byte length). -/
def drawOp? (g : RasterizedGlyph) (buffer : List Nat) (x y : Int) : List DrawOp :=
  if u32cast g.width ≠ 0 ∧ u32cast g.height ≠ 0 ∧
      buffer.length = u32cast g.width * u32cast g.height * 4 then
    [{ x := x, y := y, w := u32cast g.width, h := u32cast g.height, bytes := buffer }]
  else []

/-- The glyph placement loop of `rerender`: builds each glyph's byte buffer,
applies kerning to the caret, attempts the blit, advances the caret by the
glyph's horizontal advance, and threads the previous key.  Returns the draw
trace (or `none` on a pixel-indexing panic) and the kerning calls issued. -/
def glyphLoop {ε A : Type} (tm : TintModel A) (rast : Rasterizer ε) (color : Color)
    (hgt dsc : Int) :
    List (GlyphKey × RasterizedGlyph) → Int → Option GlyphKey →
      Option (List DrawOp) × List BackendCall
  | [], _, _ => (some [], [])
  | (key, g) :: rest, caret, last =>
    match glyphBytes tm color g.buffer with
    | none => (none, [])
    | some buffer =>
      let caret2 := caret + kernAdd rast last key
      let r := glyphLoop tm rast color hgt dsc rest (caret2 + g.advance.1) (some key)
      (r.1.map fun ls => drawOp? g buffer (g.left + caret2) (hgt - g.top + dsc) ++ ls,
        kernCalls rast last key ++ r.2)

/-- The render pass `TitleText::rerender`.  Returns the updated state
(`none` models a panic) and the backend calls issued. -/
def rerender {ε A : Type} (tm : TintModel A) (st : TitleText ε) :
    Option (TitleText ε) × List BackendCall :=
  let glyphs := glyphsOf st
  if glyphs.isEmpty then (some { st with pixmap := none }, glyphCalls st)
  else
    match Pixmap.new (u32cast (widthOf glyphs)) (u32cast (rustRound st.metrics.line_height)) with
    | none => (some { st with pixmap := none }, glyphCalls st)
    | some p =>
      match glyphLoop tm st.rasterizer st.color (rustRound st.metrics.line_height)
          (rustRound st.metrics.descent) glyphs 0 none with
      | (none, kc) => (none, glyphCalls st ++ kc)
      | (some ops, kc) =>
        (some { st with pixmap := some { p with ops := ops } }, glyphCalls st ++ kc)

/-- The glyph key of the reference character loaded before metrics queries. -/
def mGlyphKey {ε : Type} (st : TitleText ε) : GlyphKey :=
  { font_key := st.font_key, character := 'm', size := st.size }

/-- `TitleText::update_metrics`: reload the reference glyph, then refresh
the metrics; any failure leaves the stored metrics unchanged. -/
def update_metrics {ε : Type} (st : TitleText ε) :
    Except ε (TitleText ε) × List BackendCall :=
  match st.rasterizer.funs.glyphAt st.rasterizer.dpr (mGlyphKey st) with
  | .error e => (.error e, [.getGlyph st.rasterizer.dpr (mGlyphKey st)])
  | .ok _ =>
    match st.rasterizer.funs.metricsAt st.rasterizer.dpr st.font_key st.size with
    | .error e =>
      (.error e, [.getGlyph st.rasterizer.dpr (mGlyphKey st), .metricsQ st.rasterizer.dpr])
    | .ok m =>
      (.ok { st with metrics := m },
        [.getGlyph st.rasterizer.dpr (mGlyphKey st), .metricsQ st.rasterizer.dpr])

/-- The effect of `update_dpr` plus the scale store in `update_scale`. -/
def setScale {ε : Type} (st : TitleText ε) (scale : Nat) : TitleText ε :=
  { st with scale := scale, rasterizer := { st.rasterizer with dpr := scale } }

/-- `TitleText::update_scale`: on a changed scale, reconfigure the
rasterizer, store the scale, best-effort refresh the metrics, re-render. -/
def update_scale {ε A : Type} (tm : TintModel A) (st : TitleText ε) (scale : Nat) :
    Option (TitleText ε) × List BackendCall :=
  if st.scale ≠ scale then
    let st1 := setScale st scale
    let mres := update_metrics st1
    let st2 := match mres.1 with
      | .ok s => s
      | .error _ => st1
    let rres := rerender tm st2
    (rres.1, BackendCall.updateDpr scale :: (mres.2 ++ rres.2))
  else (some st, [])

/-- `TitleText::update_title`: store and re-render only on a changed title. -/
def update_title {ε A : Type} (tm : TintModel A) (st : TitleText ε) (title : String) :
    Option (TitleText ε) × List BackendCall :=
  if st.title ≠ title then rerender tm { st with title := title }
  else (some st, [])

/-- `TitleText::update_color`: store and re-render only on a changed color. -/
def update_color {ε A : Type} (tm : TintModel A) (st : TitleText ε) (color : Color) :
    Option (TitleText ε) × List BackendCall :=
  if st.color ≠ color then rerender tm { st with color := color }
  else (some st, [])

/-- `TitleText::new`: build the rasterizer at scale 1, load the font, force
the reference glyph, query metrics, then run the initial render pass; every
backend failure is propagated. -/
def new {ε A : Type} (tm : TintModel A) (mkRasterizer : Except ε (RasterFuns ε))
    (color : Color) : Except ε (Option (TitleText ε)) :=
  let title : String := ""
  let scale : Nat := 1
  let font_desc : FontDesc := sansSerif
  match mkRasterizer with
  | .error e => .error e
  | .ok funs =>
    let rasterizer : Rasterizer ε := { dpr := scale, funs := funs }
    let size : ℚ := 10
    match funs.loadFont rasterizer.dpr font_desc size with
    | .error e => .error e
    | .ok font_key =>
      match funs.glyphAt rasterizer.dpr { font_key := font_key, character := 'm', size := size } with
      | .error e => .error e
      | .ok _ =>
        match funs.metricsAt rasterizer.dpr font_key size with
        | .error e => .error e
        | .ok metrics =>
          let t0 : TitleText ε :=
            { title := title, font_desc := font_desc, font_key := font_key, size := size,
              scale := scale, metrics := metrics, rasterizer := rasterizer, color := color,
              pixmap := none }
          .ok (rerender tm t0).1

/-- `TitleText::pixmap`: the read accessor for the cached bitmap. -/
def pixmapOf {ε : Type} (st : TitleText ε) : Option Pixmap := st.pixmap

/-- The truncated horizontal kerning value the walk consults for a pair. -/
def kernOf {ε : Type} (rast : Rasterizer ε) : GlyphKey → GlyphKey → Int :=
  fun l r => ratTrunc (rast.funs.kerningAt rast.dpr l r).1

/-- Modelled from the spec wording of the glyph walk, for comparison with
`glyphLoop`: walk the glyphs left to right keeping a caret and the previous
key; with a predecessor, add the pair's horizontal kerning to the caret
before placing; place the glyph at `(glyph.left + caret,
bitmapHeight - glyph.top + round(descent))`; then advance the caret by the
glyph's horizontal advance and record the glyph as previous.  Returns the
placements and the kerning pairs looked up, in order. -/
def specWalk (kern : GlyphKey → GlyphKey → Int) (hgt dsc : Int) :
    List (GlyphKey × RasterizedGlyph) → Int → Option GlyphKey →
      List ((GlyphKey × RasterizedGlyph) × Int × Int) × List (GlyphKey × GlyphKey)
  | [], _, _ => ([], [])
  | (key, g) :: rest, caret, prev =>
    let caret2 := caret + (match prev with | some l => kern l key | none => 0)
    let r := specWalk kern hgt dsc rest (caret2 + g.advance.1) (some key)
    (((key, g), g.left + caret2, hgt - g.top + dsc) :: r.1,
      (match prev with | some l => [(l, key)] | none => []) ++ r.2)

/-- The draw calls induced by a list of placements: each placed glyph whose
byte buffer is well formed for its dimensions is blitted at its position. -/
def specOps {A : Type} (tm : TintModel A) (color : Color) :
    List ((GlyphKey × RasterizedGlyph) × Int × Int) → List DrawOp
  | [] => []
  | ((_, g), x, y) :: rest =>
    (match glyphBytes tm color g.buffer with
     | some buffer => drawOp? g buffer x y
     | none => []) ++ specOps tm color rest

/-!
Concrete instances used to evaluate the model at specific inputs.
-/

/-- A trivial tint model (all bytes zero). -/
def tm0 : TintModel Unit :=
  { alphaOf := fun _ => (), premulByte := fun _ _ => 0, alphaByte := fun _ => 0 }

/-- Opaque red base color. -/
def c0 : Color := { r := 1, g := 0, b := 0, a := 1 }

/-- A degenerate glyph with no pixels. -/
def g0 : RasterizedGlyph :=
  { left := 0, top := 0, width := 0, height := 0, advance := (0, 0), buffer := .rgb [] }

/-- Simple metrics: line height 12, descent -3. -/
def m0 : Metrics := { line_height := 12, descent := -3 }

/-- A backend whose queries always succeed, returning `g0` and `m0`. -/
def funs0 : RasterFuns Unit :=
  { loadFont := fun _ _ _ => .ok 0
    glyphAt := fun _ _ => .ok g0
    metricsAt := fun _ _ _ => .ok m0
    kerningAt := fun _ _ _ => (0, 0) }

/-- The state `new` produces from `funs0` and `c0`. -/
def st0 : TitleText Unit :=
  { title := "", font_desc := sansSerif, font_key := 0, size := 10, scale := 1,
    metrics := m0, rasterizer := { dpr := 1, funs := funs0 }, color := c0, pixmap := none }

/-- A narrow glyph: `left + width = 2 < 5`. -/
def g1 : RasterizedGlyph :=
  { left := 0, top := 10, width := 2, height := 1, advance := (3, 0),
    buffer := .rgb [255, 255, 255, 0, 0, 0] }

/-- A backend returning the narrow glyph `g1` for every character. -/
def funs1 : RasterFuns Unit :=
  { loadFont := fun _ _ _ => .ok 0
    glyphAt := fun _ _ => .ok g1
    metricsAt := fun _ _ _ => .ok m0
    kerningAt := fun _ _ _ => (1, 0) }

/-- A single-character title over the narrow glyph. -/
def stA : TitleText Unit :=
  { st0 with title := "A", rasterizer := { dpr := 1, funs := funs1 } }

/-- The glyph key for the single-character title. -/
def keyA : GlyphKey := { font_key := 0, character := 'A', size := 10 }

/-- One-pixel glyph for the letter A (RGB mask). -/
def gA : RasterizedGlyph :=
  { left := 0, top := 10, width := 1, height := 1, advance := (3, 0),
    buffer := .rgb [255, 255, 255] }

/-- One-pixel glyph for the letter B (RGBA mask). -/
def gB : RasterizedGlyph :=
  { left := 1, top := 10, width := 1, height := 1, advance := (4, 0),
    buffer := .rgba [1, 2, 3, 4] }

/-- A backend distinguishing the characters A and B, with kerning 1. -/
def funsAB : RasterFuns Unit :=
  { loadFont := fun _ _ _ => .ok 0
    glyphAt := fun _ k => if k.character = 'A' then .ok gA else .ok gB
    metricsAt := fun _ _ _ => .ok m0
    kerningAt := fun _ _ _ => (1, 0) }

/-- A two-character title exercising kerning and both buffer kinds. -/
def stAB : TitleText Unit :=
  { st0 with title := "AB", rasterizer := { dpr := 1, funs := funsAB } }

/-- A backend whose glyph lookups always fail. -/
def funsE : RasterFuns Unit :=
  { loadFont := fun _ _ _ => .ok 0
    glyphAt := fun _ _ => .error ()
    metricsAt := fun _ _ _ => .ok m0
    kerningAt := fun _ _ _ => (0, 0) }

/-- A nonempty title all of whose glyph lookups fail. -/
def stE : TitleText Unit :=
  { st0 with title := "x", rasterizer := { dpr := 1, funs := funsE } }

/-- A backend whose glyph lookups fail exactly at device-pixel ratio 2. -/
def funs2 : RasterFuns Unit :=
  { loadFont := fun _ _ _ => .ok 0
    glyphAt := fun d _ => if d = 2 then .error () else .ok g0
    metricsAt := fun _ _ _ => .ok m0
    kerningAt := fun _ _ _ => (0, 0) }

/-- A state whose metrics refresh will fail after a scale change to 2. -/
def st8 : TitleText Unit := { st0 with rasterizer := { dpr := 1, funs := funs2 } }

/-- A failing rasterizer construction. -/
def mkBad : Except Unit (RasterFuns Unit) := .error ()

/-- The draw call the render pass issues for `stA`. -/
def opA : DrawOp := { x := 0, y := -1, w := 2, h := 1, bytes := [0, 0, 0, 0, 0, 0, 0, 0] }

/-- The bitmap the render pass produces for `stA`. -/
def pxA : Pixmap := { width := 5, height := 12, ops := [opA] }

/-- The state after re-rendering `stA`. -/
def stA2 : TitleText Unit := { stA with pixmap := some pxA }

/-- The glyph key of the second character of `stAB`. -/
def keyB : GlyphKey := { font_key := 0, character := 'B', size := 10 }

/-- The draw call for the first glyph of `stAB`. -/
def opN1 : DrawOp := { x := 0, y := -1, w := 1, h := 1, bytes := [0, 0, 0, 0] }

/-- The draw call for the second glyph of `stAB` (advance 3 plus kerning 1). -/
def opN2 : DrawOp := { x := 5, y := -1, w := 1, h := 1, bytes := [0, 0, 0, 0] }

/-- The bitmap the render pass produces for `stAB`. -/
def pxAB : Pixmap := { width := 10, height := 12, ops := [opN1, opN2] }

/-- The state after re-rendering `stAB`. -/
def stAB2 : TitleText Unit := { stAB with pixmap := some pxAB }

/-- The state `update_scale` produces from `st0` with argument 2. -/
def stU : TitleText Unit := { st0 with scale := 2, rasterizer := { dpr := 2, funs := funs0 } }

/-- A 12-byte pixel buffer, a valid length for both RGB and RGBA tags. -/
def v12 : List Nat := [10, 20, 30, 40, 50, 60, 70, 80, 90, 100, 110, 120]

/-- A one-pixel RGBA glyph buffer. -/
def bfA : BitmapBuffer := .rgba [10, 20, 30, 40]

end SctkTitle

/-!
Helper lemmas about the embedded operations.
-/

namespace SctkTitle

theorem u32cast_eq {w : Int} (h0 : 0 ≤ w) (h1 : w < 2 ^ 32) : (u32cast w : Int) = w := by
  unfold u32cast
  rw [Int.emod_eq_of_lt h0 h1, Int.toNat_of_nonneg h0]

theorem widthOf_foldl_le (gs : List (GlyphKey × RasterizedGlyph)) :
    ∀ a : Int, a ≤ gs.foldl (fun w p => w + max (p.2.left + p.2.width) 5) a := by
  induction gs with
  | nil => intro a; simp
  | cons hd tl ih =>
    intro a
    simp only [List.foldl_cons]
    have h5 : (5 : Int) ≤ max (hd.2.left + hd.2.width) 5 := le_max_right _ _
    have h2 := ih (a + max (hd.2.left + hd.2.width) 5)
    omega

theorem widthOf_nonneg (gs : List (GlyphKey × RasterizedGlyph)) : 0 ≤ widthOf gs :=
  widthOf_foldl_le gs 0

theorem widthOf_single (k : GlyphKey) (g : RasterizedGlyph) (h : g.left + g.width < 5) :
    widthOf [(k, g)] = 5 := by
  simp [widthOf]
  omega

theorem pixmap_new_some {w h : Nat} {p : Pixmap} (hp : Pixmap.new w h = some p) :
    p.width = w ∧ p.height = h ∧ p.ops = [] := by
  unfold Pixmap.new at hp
  split at hp
  · exact absurd hp (by simp)
  · injection hp with h2
    subst h2
    exact ⟨rfl, rfl, rfl⟩

theorem pixFold_eq {A : Type} (tm : TintModel A) (c : Color) (l : List (List Nat)) :
    ∀ buf : List Nat,
      pixFold tm c buf l = (covList l).map fun covs =>
        buf ++ covs.flatMap fun cov => pixel4 (tintPixel tm c cov) := by
  induction l with
  | nil => intro buf; simp [pixFold, covList]
  | cons px rest ih =>
    intro buf
    simp only [pixFold, covList]
    cases hc : pxCoverage px with
    | none => simp
    | some cov =>
      dsimp only
      rw [ih]
      cases hrest : covList rest with
      | none => simp
      | some covs => simp [List.append_assoc]

theorem glyphBytes_eq {A : Type} (tm : TintModel A) (c : Color) (b : BitmapBuffer) :
    glyphBytes tm c b = (covList (glyphChunks b)).map fun covs =>
      covs.flatMap fun cov => pixel4 (tintPixel tm c cov) := by
  unfold glyphBytes
  rw [pixFold_eq]
  simp

theorem chunks3_full (v : List Nat) (h : 3 ∣ v.length) : ∀ c ∈ chunks3 v, c.length = 3 := by
  induction v using chunks3.induct with
  | case1 => simp [chunks3]
  | case2 a => simp at h
  | case3 a b => simp only [List.length_cons, List.length_nil] at h; omega
  | case4 a b c rest ih =>
    intro px hm
    simp only [chunks3, List.mem_cons] at hm
    rcases hm with rfl | hm
    · rfl
    · exact ih (by simp at h; omega) px hm

theorem chunks4_full (v : List Nat) (h : 4 ∣ v.length) : ∀ c ∈ chunks4 v, c.length = 4 := by
  induction v using chunks4.induct with
  | case1 => simp [chunks4]
  | case2 a => simp at h
  | case3 a b => simp only [List.length_cons, List.length_nil] at h; omega
  | case4 a b c => simp only [List.length_cons, List.length_nil] at h; omega
  | case5 a b c d rest ih =>
    intro px hm
    simp only [chunks4, List.mem_cons] at hm
    rcases hm with rfl | hm
    · rfl
    · exact ih (by simp at h; omega) px hm

theorem pxCoverage_len3 {px : List Nat} (h : px.length = 3) :
    ∃ r g b, px = [r, g, b] ∧ pxCoverage px = some (.fromRGB r g b) := by
  obtain ⟨r, g, b, rfl⟩ := List.length_eq_three.mp h
  exact ⟨r, g, b, rfl, rfl⟩

theorem pxCoverage_len4 {px : List Nat} (h : px.length = 4) :
    ∃ a, pxCoverage px = some (.fromAlpha a) := by
  match px, h with
  | [r, g, b, a], _ => exact ⟨a, rfl⟩

theorem covList_isSome {l : List (List Nat)} (h : ∀ px ∈ l, (pxCoverage px).isSome) :
    ∃ covs, covList l = some covs := by
  induction l with
  | nil => exact ⟨[], rfl⟩
  | cons px rest ih =>
    obtain ⟨cov, hc⟩ := Option.isSome_iff_exists.mp (h px (by simp))
    obtain ⟨covs, hcs⟩ := ih fun q hq => h q (by simp [hq])
    exact ⟨cov :: covs, by simp [covList, hc, hcs]⟩

theorem rerender_nil {ε A : Type} (tm : TintModel A) (st : TitleText ε)
    (h : glyphsOf st = []) :
    rerender tm st = (some { st with pixmap := none }, glyphCalls st) := by
  unfold rerender
  simp [h]

theorem rerender_shape {ε A : Type} (tm : TintModel A) (st st' : TitleText ε)
    (calls : List BackendCall) (h : rerender tm st = (some st', calls)) :
    st' = { st with pixmap := st'.pixmap } := by
  simp only [rerender] at h
  split at h
  · injection h with h1 h2
    injection h1 with h1
    subst h1
    rfl
  · split at h
    · injection h with h1 h2
      injection h1 with h1
      subst h1
      rfl
    · split at h
      · injection h with h1 h2
        exact absurd h1 (by simp)
      · injection h with h1 h2
        injection h1 with h1
        subst h1
        rfl

theorem rerender_success {ε A : Type} (tm : TintModel A) (st st' : TitleText ε)
    (calls : List BackendCall) (p : Pixmap)
    (h : rerender tm st = (some st', calls)) (hp : st'.pixmap = some p) :
    (glyphsOf st).isEmpty = false ∧
    p.width = u32cast (widthOf (glyphsOf st)) ∧
    p.height = u32cast (rustRound st.metrics.line_height) ∧
    st' = { st with pixmap := some p } ∧
    ∃ kc, glyphLoop tm st.rasterizer st.color (rustRound st.metrics.line_height)
        (rustRound st.metrics.descent) (glyphsOf st) 0 none = (some p.ops, kc) ∧
      calls = glyphCalls st ++ kc := by
  simp only [rerender] at h
  split at h
  · next he =>
    injection h with h1 h2
    injection h1 with h1
    subst h1
    simp at hp
  · next he =>
    split at h
    · injection h with h1 h2
      injection h1 with h1
      subst h1
      simp at hp
    · next p0 hnew =>
      split at h
      · injection h with h1 h2
        exact absurd h1 (by simp)
      · next ops kc hloop =>
        injection h with h1 h2
        injection h1 with h1
        subst h1
        subst h2
        dsimp only at hp
        injection hp with hp2
        subst hp2
        obtain ⟨hw, hh, hops⟩ := pixmap_new_some hnew
        refine ⟨by simpa using he, hw, hh, rfl, kc, ?_, rfl⟩
        simpa using hloop

theorem glyphLoop_eq_specWalk {ε A : Type} (tm : TintModel A) (rast : Rasterizer ε)
    (color : Color) (hgt dsc : Int) (gs : List (GlyphKey × RasterizedGlyph)) :
    ∀ (caret : Int) (last : Option GlyphKey) (ops : List DrawOp) (kc : List BackendCall),
      glyphLoop tm rast color hgt dsc gs caret last = (some ops, kc) →
      ops = specOps tm color (specWalk (kernOf rast) hgt dsc gs caret last).1 ∧
      kc = ((specWalk (kernOf rast) hgt dsc gs caret last).2).map fun pr =>
        BackendCall.kerningQ rast.dpr pr.1 pr.2 := by
  induction gs with
  | nil =>
    intro caret last ops kc h
    simp only [glyphLoop] at h
    injection h with h1 h2
    injection h1 with h1
    subst h1
    subst h2
    simp [specWalk, specOps]
  | cons hd rest ih =>
    obtain ⟨key, g⟩ := hd
    intro caret last ops kc h
    simp only [glyphLoop] at h
    cases hB : glyphBytes tm color g.buffer with
    | none =>
      rw [hB] at h
      injection h with h1 h2
      exact absurd h1 (by simp)
    | some buffer =>
      rw [hB] at h
      dsimp only at h
      rcases hr : glyphLoop tm rast color hgt dsc rest (caret + kernAdd rast last key + g.advance.1)
          (some key) with ⟨ro, rc⟩
      rw [hr] at h
      cases ro with
      | none =>
        injection h with h1 h2
        simp at h1
      | some rops =>
        injection h with h1 h2
        injection h1 with h1
        subst h1
        subst h2
        obtain ⟨ih1, ih2⟩ := ih _ _ _ _ hr
        subst ih1
        subst ih2
        cases last with
        | none =>
          simp only [specWalk, specOps, kernAdd, kernCalls, hB]
          simp
        | some l =>
          simp only [specWalk, specOps, kernAdd, kernCalls, kernOf, hB]
          simp

theorem update_metrics_shape {ε : Type} {st st2 : TitleText ε}
    (h : (update_metrics st).1 = .ok st2) : st2 = { st with metrics := st2.metrics } := by
  unfold update_metrics at h
  split at h
  · simp at h
  · split at h
    · simp at h
    · dsimp only at h
      injection h with h1
      subst h1
      rfl

theorem rerender_fst_shape {ε A : Type} (tm : TintModel A) {st st' : TitleText ε}
    (h : (rerender tm st).1 = some st') : st' = { st with pixmap := st'.pixmap } := by
  have hpair : rerender tm st = (some st', (rerender tm st).2) := by
    rw [← h]
  exact rerender_shape tm st st' (rerender tm st).2 hpair

theorem rerender_fst_scale {ε A : Type} (tm : TintModel A) {st st' : TitleText ε}
    (h : (rerender tm st).1 = some st') : st'.scale = st.scale := by
  rw [rerender_fst_shape tm h]

end SctkTitle

/-!
Claim theorems, each followed by a witness where the statement carries
hypotheses, and the counterexample for the one corrected claim.
-/

namespace SctkTitle

/-- C1: a render pass that obtains a non-empty glyph list produces a bitmap
whose width is the sum over the glyphs of `max(left + width, 5)`; for a
single glyph with `left + width < 5` the width is exactly 5. -/
theorem width_sum_of_rendered {ε A : Type} (tm : TintModel A) (st st' : TitleText ε)
    (calls : List BackendCall) (p : Pixmap)
    (h : rerender tm st = (some st', calls)) (hp : st'.pixmap = some p) :
    glyphsOf st ≠ [] ∧
    p.width = u32cast (widthOf (glyphsOf st)) ∧
    (widthOf (glyphsOf st) < 2 ^ 32 → (p.width : Int) = widthOf (glyphsOf st)) ∧
    (∀ k g, glyphsOf st = [(k, g)] → g.left + g.width < 5 → p.width = 5) := by
  obtain ⟨hne, hw, -, -, -⟩ := rerender_success tm st st' calls p h hp
  refine ⟨by simpa [List.isEmpty_iff] using hne, hw, ?_, ?_⟩
  · intro hlt
    rw [hw]
    exact u32cast_eq (widthOf_nonneg _) hlt
  · intro k g hg hsm
    rw [hw, hg, widthOf_single k g hsm]
    rfl

/-- C1 witness: the single-glyph state `stA` (glyph extent `0 + 2 < 5`)
renders a bitmap of width exactly 5. -/
theorem width_sum_of_rendered_witness :
    (glyphsOf stA ≠ [] ∧
      pxA.width = u32cast (widthOf (glyphsOf stA)) ∧
      (widthOf (glyphsOf stA) < 2 ^ 32 → (pxA.width : Int) = widthOf (glyphsOf stA)) ∧
      (∀ k g, glyphsOf stA = [(k, g)] → g.left + g.width < 5 → pxA.width = 5)) ∧
    pxA.width = 5 :=
  ⟨width_sum_of_rendered tm0 stA stA2 [BackendCall.getGlyph 1 keyA] pxA rfl rfl, rfl⟩

/-- C2: every pixel contributes exactly four bytes, in order the
premultiplied red byte twice, then the premultiplied green byte, then the
alpha byte; the base color's blue component never influences the output. -/
theorem pixel_bytes_channel_map {A : Type} (tm : TintModel A) (c : Color) (b : BitmapBuffer)
    (bs : List Nat) (h : glyphBytes tm c b = some bs) :
    (∃ covs, covList (glyphChunks b) = some covs ∧
      bs = covs.flatMap fun cov =>
        [tm.premulByte c.r (tm.alphaOf cov), tm.premulByte c.r (tm.alphaOf cov),
          tm.premulByte c.g (tm.alphaOf cov), tm.alphaByte (tm.alphaOf cov)]) ∧
    ∀ q : ℚ, glyphBytes tm { c with b := q } b = some bs := by
  have he := glyphBytes_eq tm c b
  rw [h] at he
  cases hc : covList (glyphChunks b) with
  | none => rw [hc] at he; simp at he
  | some covs =>
    rw [hc] at he
    simp at he
    have he2 : bs = covs.flatMap fun cov =>
        [tm.premulByte c.r (tm.alphaOf cov), tm.premulByte c.r (tm.alphaOf cov),
          tm.premulByte c.g (tm.alphaOf cov), tm.alphaByte (tm.alphaOf cov)] := by
      simpa [pixel4, tintPixel] using he
    refine ⟨⟨covs, rfl, he2⟩, fun q => ?_⟩
    rw [glyphBytes_eq, hc]
    have hq : (covs.flatMap fun cov => pixel4 (tintPixel tm { c with b := q } cov)) = bs := by
      simpa [pixel4, tintPixel] using he2.symm
    simpa using hq

/-- C2 witness: a one-pixel RGBA glyph rendered with the trivial tint
model; its four output bytes and their blue-independence. -/
theorem pixel_bytes_channel_map_witness :
    ((∃ covs, covList (glyphChunks bfA) = some covs ∧
      [0, 0, 0, 0] = covs.flatMap fun cov =>
        [tm0.premulByte c0.r (tm0.alphaOf cov), tm0.premulByte c0.r (tm0.alphaOf cov),
          tm0.premulByte c0.g (tm0.alphaOf cov), tm0.alphaByte (tm0.alphaOf cov)]) ∧
    ∀ q : ℚ, glyphBytes tm0 { c0 with b := q } bfA = some [0, 0, 0, 0]) :=
  pixel_bytes_channel_map tm0 c0 bfA [0, 0, 0, 0] rfl

/-- C3: calling any of the three mutators with the value already stored is
a no-op: the state (cached bitmap included) is returned unchanged and no
backend call is issued. -/
theorem mutators_noop_on_equal {ε A : Type} (tm : TintModel A) (st : TitleText ε) :
    update_title tm st st.title = (some st, []) ∧
    update_scale tm st st.scale = (some st, []) ∧
    update_color tm st st.color = (some st, []) := by
  refine ⟨?_, ?_, ?_⟩ <;> simp [update_title, update_scale, update_color]

/-- C4 counterexample: from the freshly constructed state `st0` (scale 1),
`update_scale` with argument 0 stores scale 0, so the stored scale does not
remain at least 1 under every operation sequence. -/
theorem scale_invariant_cex :
    new tm0 (.ok funs0) c0 = .ok (some st0) ∧ st0.scale = 1 ∧
    ((update_scale tm0 st0 0).1.map fun s => s.scale) = some 0 :=
  ⟨rfl, rfl, rfl⟩

/-- C4 (amended): the scale is 1 after construction and afterwards always
equals the argument of the last effective `update_scale` call, which is
stored unguarded; the other operations never change it.  Hence the scale
stays at least 1 exactly when every `update_scale` argument is. -/
theorem scale_tracks_arguments {ε A : Type} (tm : TintModel A) :
    (∀ (mk : Except ε (RasterFuns ε)) (color : Color) (stc : TitleText ε),
      new tm mk color = .ok (some stc) → stc.scale = 1) ∧
    (∀ (st st' : TitleText ε) (s : Nat),
      (update_scale tm st s).1 = some st' → st'.scale = s) ∧
    (∀ (st st' : TitleText ε) (t : String),
      (update_title tm st t).1 = some st' → st'.scale = st.scale) ∧
    (∀ (st st' : TitleText ε) (c : Color),
      (update_color tm st c).1 = some st' → st'.scale = st.scale) := by
  refine ⟨?_, ?_, ?_, ?_⟩
  · intro mk color stc h
    cases mk with
    | error e => simp [new] at h
    | ok funs =>
      simp only [new] at h
      split at h
      · simp at h
      · split at h
        · simp at h
        · split at h
          · simp at h
          · simp only [Except.ok.injEq] at h
            rw [rerender_fst_scale tm h]
  · intro st st' s h
    by_cases hc : st.scale ≠ s
    · unfold update_scale at h
      rw [if_pos hc] at h
      dsimp only at h
      cases hm : (update_metrics (setScale st s)).1 with
      | error e =>
        rw [hm] at h
        dsimp only at h
        rw [rerender_fst_scale tm h]
        rfl
      | ok st2 =>
        rw [hm] at h
        dsimp only at h
        rw [rerender_fst_scale tm h, update_metrics_shape hm]
        rfl
    · unfold update_scale at h
      rw [if_neg hc] at h
      dsimp only at h
      injection h with h1
      rw [← h1]
      exact (not_ne_iff.mp hc).symm ▸ rfl
  · intro st st' t h
    unfold update_title at h
    split at h
    · rw [rerender_fst_scale tm h]
    · injection h with h1
      rw [← h1]
  · intro st st' c h
    unfold update_color at h
    split at h
    · rw [rerender_fst_scale tm h]
    · injection h with h1
      rw [← h1]

/-- C4 witness: the construction yields scale 1 and an effective
`update_scale` to 2 stores exactly 2. -/
theorem scale_tracks_arguments_witness :
    st0.scale = 1 ∧ stU.scale = 2 :=
  ⟨(scale_tracks_arguments tm0).1 (.ok funs0) c0 st0 rfl,
    (scale_tracks_arguments tm0).2.1 st0 stU 2 rfl⟩

/-- C5: an empty title yields no glyphs, a title all of whose lookups fail
yields no glyphs, and a glyph-free render pass clears the cache to `none`
and returns normally (no panic, no error). -/
theorem no_glyphs_clears_cache {ε A : Type} (tm : TintModel A) (st : TitleText ε) :
    (st.title = "" → glyphsOf st = []) ∧
    ((∀ pr ∈ glyphLookups st, ∃ e, pr.2 = .error e) → glyphsOf st = []) ∧
    (glyphsOf st = [] →
      rerender tm st = (some { st with pixmap := none }, glyphCalls st)) := by
  refine ⟨?_, ?_, fun h => rerender_nil tm st h⟩
  · intro h
    have hnil : st.title.data = [] := by rw [h]
    simp [glyphsOf, glyphLookups, String.toList, hnil]
  · intro h
    simp only [glyphsOf]
    rw [List.filterMap_eq_nil_iff]
    intro pr hpr
    obtain ⟨e, he⟩ := h pr hpr
    simp [he]

/-- C5 witness: the empty-title state `st0` and the failing-lookup state
`stE` both clear the cache and return without error. -/
theorem no_glyphs_clears_cache_witness :
    glyphsOf st0 = [] ∧
    rerender tm0 st0 = (some { st0 with pixmap := none }, glyphCalls st0) ∧
    rerender tm0 stE = (some { stE with pixmap := none }, glyphCalls stE) :=
  ⟨(no_glyphs_clears_cache tm0 st0).1 rfl,
    (no_glyphs_clears_cache tm0 st0).2.2 ((no_glyphs_clears_cache tm0 st0).1 rfl),
    (no_glyphs_clears_cache tm0 stE).2.2 rfl⟩

/-- C6: the glyph walk of a successful render matches the spec walk: the
kerning of (previous, current) is added to the caret before placement, each
drawn glyph sits at `(left + caret, height - top + round(descent))`, the
caret then advances by the glyph's advance, and the glyph becomes the
previous key for the next kerning lookup. -/
theorem glyph_walk_layout {ε A : Type} (tm : TintModel A) (st st' : TitleText ε)
    (calls : List BackendCall) (p : Pixmap)
    (h : rerender tm st = (some st', calls)) (hp : st'.pixmap = some p) :
    p.ops = specOps tm st.color
      (specWalk (kernOf st.rasterizer) (rustRound st.metrics.line_height)
        (rustRound st.metrics.descent) (glyphsOf st) 0 none).1 ∧
    calls = glyphCalls st ++
      ((specWalk (kernOf st.rasterizer) (rustRound st.metrics.line_height)
        (rustRound st.metrics.descent) (glyphsOf st) 0 none).2).map fun pr =>
        BackendCall.kerningQ st.rasterizer.dpr pr.1 pr.2 := by
  obtain ⟨-, -, -, -, kc, hloop, hcalls⟩ := rerender_success tm st st' calls p h hp
  obtain ⟨h1, h2⟩ := glyphLoop_eq_specWalk tm st.rasterizer st.color
    (rustRound st.metrics.line_height) (rustRound st.metrics.descent)
    (glyphsOf st) 0 none p.ops kc hloop
  exact ⟨h1, by rw [hcalls, h2]⟩

/-- C6 witness: the two-glyph state `stAB` with kerning 1; draw positions
and the kerning call between the two keys agree with the spec walk. -/
theorem glyph_walk_layout_witness :
    pxAB.ops = specOps tm0 stAB.color
      (specWalk (kernOf stAB.rasterizer) (rustRound stAB.metrics.line_height)
        (rustRound stAB.metrics.descent) (glyphsOf stAB) 0 none).1 ∧
    [BackendCall.getGlyph 1 keyA, BackendCall.getGlyph 1 keyB,
        BackendCall.kerningQ 1 keyA keyB] = glyphCalls stAB ++
      ((specWalk (kernOf stAB.rasterizer) (rustRound stAB.metrics.line_height)
        (rustRound stAB.metrics.descent) (glyphsOf stAB) 0 none).2).map fun pr =>
        BackendCall.kerningQ stAB.rasterizer.dpr pr.1 pr.2 :=
  glyph_walk_layout tm0 stAB stAB2
    [BackendCall.getGlyph 1 keyA, BackendCall.getGlyph 1 keyB,
      BackendCall.kerningQ 1 keyA keyB] pxAB rfl rfl

/-- C7: a render pass that produces a bitmap gives it height
`round(lineHeight)` of the current metrics, whatever the title. -/
theorem bitmap_height_line_height {ε A : Type} (tm : TintModel A) (st st' : TitleText ε)
    (calls : List BackendCall) (p : Pixmap)
    (h : rerender tm st = (some st', calls)) (hp : st'.pixmap = some p) :
    p.height = u32cast (rustRound st.metrics.line_height) ∧
    (0 ≤ rustRound st.metrics.line_height → rustRound st.metrics.line_height < 2 ^ 32 →
      (p.height : Int) = rustRound st.metrics.line_height) := by
  obtain ⟨-, -, hh, -, -⟩ := rerender_success tm st st' calls p h hp
  refine ⟨hh, fun h0 h1 => ?_⟩
  rw [hh]
  exact u32cast_eq h0 h1

/-- C7 witness: the rendered bitmap for `stA` has height `round(12) = 12`. -/
theorem bitmap_height_line_height_witness :
    (pxA.height = u32cast (rustRound stA.metrics.line_height) ∧
      (0 ≤ rustRound stA.metrics.line_height → rustRound stA.metrics.line_height < 2 ^ 32 →
        (pxA.height : Int) = rustRound stA.metrics.line_height)) ∧
    pxA.height = 12 :=
  ⟨bitmap_height_line_height tm0 stA stA2 [BackendCall.getGlyph 1 keyA] pxA rfl rfl, rfl⟩

/-- C8: a scale change always reconfigures the rasterizer and stores the
new scale; when the reference-glyph reload or metrics query fails, the old
metrics are kept, no error escapes, and the re-render still runs. -/
theorem scale_update_failure_tolerated {ε A : Type} (tm : TintModel A) (st : TitleText ε)
    (s : Nat) (e : ε) (hne : st.scale ≠ s)
    (hfail : (update_metrics (setScale st s)).1 = .error e) :
    (update_scale tm st s).1 = (rerender tm (setScale st s)).1 ∧
    (update_scale tm st s).2 = BackendCall.updateDpr s ::
      ((update_metrics (setScale st s)).2 ++ (rerender tm (setScale st s)).2) ∧
    ∀ st', (update_scale tm st s).1 = some st' →
      st'.metrics = st.metrics ∧ st'.scale = s ∧ st'.rasterizer.dpr = s := by
  have hbranch : update_scale tm st s =
      ((rerender tm (setScale st s)).1, BackendCall.updateDpr s ::
        ((update_metrics (setScale st s)).2 ++ (rerender tm (setScale st s)).2)) := by
    unfold update_scale
    rw [if_pos hne]
    dsimp only
    rw [hfail]
  refine ⟨by rw [hbranch], by rw [hbranch], fun st' h' => ?_⟩
  rw [hbranch] at h'
  dsimp only at h'
  have hsh := rerender_fst_shape tm h'
  exact ⟨by rw [hsh]; simp [setScale], by rw [hsh]; simp [setScale],
    by rw [hsh]; simp [setScale]⟩

/-- C8 witness: a backend whose reference-glyph reload fails at device
pixel ratio 2; changing the scale of `st8` from 1 to 2 keeps the old
metrics, re-renders, and surfaces no error. -/
theorem scale_update_failure_tolerated_witness :
    ((update_scale tm0 st8 2).1 = (rerender tm0 (setScale st8 2)).1 ∧
    (update_scale tm0 st8 2).2 = BackendCall.updateDpr 2 ::
      ((update_metrics (setScale st8 2)).2 ++ (rerender tm0 (setScale st8 2)).2) ∧
    ∀ st', (update_scale tm0 st8 2).1 = some st' →
      st'.metrics = st8.metrics ∧ st'.scale = 2 ∧ st'.rasterizer.dpr = 2) :=
  scale_update_failure_tolerated tm0 st8 2 () (by decide) rfl

/-- C9: construction fails exactly on a backend failure, propagating the
error of the failing stage; on success the state has empty title, scale 1,
the given color and no cached bitmap. -/
theorem new_propagates_and_initializes {ε A : Type} (tm : TintModel A)
    (mk : Except ε (RasterFuns ε)) (color : Color) :
    (∀ e, mk = .error e → new tm mk color = .error e) ∧
    (∀ funs, mk = .ok funs →
      (∀ e, funs.loadFont 1 sansSerif 10 = .error e → new tm mk color = .error e) ∧
      (∀ fk, funs.loadFont 1 sansSerif 10 = .ok fk →
        (∀ e, funs.glyphAt 1 { font_key := fk, character := 'm', size := 10 } = .error e →
          new tm mk color = .error e) ∧
        (∀ g, funs.glyphAt 1 { font_key := fk, character := 'm', size := 10 } = .ok g →
          (∀ e, funs.metricsAt 1 fk 10 = .error e → new tm mk color = .error e) ∧
          (∀ m, funs.metricsAt 1 fk 10 = .ok m →
            new tm mk color = .ok (some
              { title := "", font_desc := sansSerif, font_key := fk, size := 10, scale := 1,
                metrics := m, rasterizer := { dpr := 1, funs := funs }, color := color,
                pixmap := none }))))) := by
  refine ⟨fun e he => by rw [he]; rfl, fun funs hf => ?_⟩
  subst hf
  refine ⟨fun e hl => ?_, fun fk hl => ⟨fun e hg => ?_, fun g hg => ⟨fun e hm => ?_,
    fun m hm => ?_⟩⟩⟩
  · simp only [new, hl]
  · simp only [new, hl, hg]
  · simp only [new, hl, hg, hm]
  · simp only [new, hl, hg, hm]
    have hnil : glyphsOf
        ({ title := "", font_desc := sansSerif, font_key := fk, size := 10, scale := 1,
           metrics := m, rasterizer := { dpr := 1, funs := funs }, color := color,
           pixmap := none } : TitleText ε) = [] := rfl
    rw [rerender_nil tm _ hnil]

/-- C9 witness: a failing rasterizer construction propagates its error; the
all-ok backend `funs0` yields the initial state `st0`. -/
theorem new_propagates_and_initializes_witness :
    new tm0 mkBad c0 = .error () ∧
    new tm0 (.ok funs0) c0 = .ok (some st0) ∧
    st0.title = "" ∧ st0.scale = 1 ∧ st0.color = c0 ∧ st0.pixmap = none :=
  ⟨(new_propagates_and_initializes tm0 mkBad c0).1 () rfl,
    ((((new_propagates_and_initializes tm0 (.ok funs0) c0).2 funs0 rfl).2 0 rfl).2 g0
      rfl).2 m0 rfl,
    rfl, rfl, rfl, rfl⟩

/-- C10: for an RGB buffer whose length is a multiple of 3 or an RGBA
buffer whose length is a multiple of 4, every chunk is full, every
coverage extraction is in bounds, and the byte loop cannot panic. -/
theorem coverage_extraction_in_bounds {A : Type} (tm : TintModel A) (c : Color) (v : List Nat) :
    (3 ∣ v.length →
      (∀ px ∈ glyphChunks (.rgb v), px.length = 3 ∧ (pxCoverage px).isSome) ∧
      ∃ bs, glyphBytes tm c (.rgb v) = some bs) ∧
    (4 ∣ v.length →
      (∀ px ∈ glyphChunks (.rgba v), px.length = 4 ∧ (pxCoverage px).isSome) ∧
      ∃ bs, glyphBytes tm c (.rgba v) = some bs) := by
  constructor
  · intro h
    have hall : ∀ px ∈ glyphChunks (BitmapBuffer.rgb v), px.length = 3 := chunks3_full v h
    have hsome : ∀ px ∈ glyphChunks (BitmapBuffer.rgb v), (pxCoverage px).isSome := by
      intro px hpx
      obtain ⟨r, g, b, -, hc⟩ := pxCoverage_len3 (hall px hpx)
      simp [hc]
    refine ⟨fun px hpx => ⟨hall px hpx, hsome px hpx⟩, ?_⟩
    obtain ⟨covs, hcs⟩ := covList_isSome hsome
    exact ⟨_, by rw [glyphBytes_eq, hcs]; rfl⟩
  · intro h
    have hall : ∀ px ∈ glyphChunks (BitmapBuffer.rgba v), px.length = 4 := chunks4_full v h
    have hsome : ∀ px ∈ glyphChunks (BitmapBuffer.rgba v), (pxCoverage px).isSome := by
      intro px hpx
      obtain ⟨a, hc⟩ := pxCoverage_len4 (hall px hpx)
      simp [hc]
    refine ⟨fun px hpx => ⟨hall px hpx, hsome px hpx⟩, ?_⟩
    obtain ⟨covs, hcs⟩ := covList_isSome hsome
    exact ⟨_, by rw [glyphBytes_eq, hcs]; rfl⟩

/-- C10 witness: a 12-byte buffer (a multiple of both 3 and 4): all chunks
full, all extractions in bounds, no panic under either tag. -/
theorem coverage_extraction_in_bounds_witness :
    ((∀ px ∈ glyphChunks (.rgb v12), px.length = 3 ∧ (pxCoverage px).isSome) ∧
      ∃ bs, glyphBytes tm0 c0 (.rgb v12) = some bs) ∧
    ((∀ px ∈ glyphChunks (.rgba v12), px.length = 4 ∧ (pxCoverage px).isSome) ∧
      ∃ bs, glyphBytes tm0 c0 (.rgba v12) = some bs) :=
  ⟨(coverage_extraction_in_bounds tm0 c0 v12).1 (by decide),
    (coverage_extraction_in_bounds tm0 c0 v12).2 (by decide)⟩

end SctkTitle
